import Mathlib

/-!
Verification development for the carguix crate
(Guix package-definition generator for Rust crates).

The repository contains two snapshots of the tool:
* `src/main.rs` — a self-contained driver (`Carguix` iterator, its own
  `CarguixError`/`CrateRef`/`CratePackage`, a breadth-first dependency walk,
  and a `(name, version)`-keyed hash cache);
* the modular layer — `src/errors.rs`, `src/guix.rs` and the
  `src/crate_ref/` module family (`RegistrySource`, `LockSource`,
  `PathSource`, `SimpleSource`, `GitSource`, a locator-keyed hash cache).

Both layers are embedded below.  External collaborators (the crates.io
index, the semver library, HTTP download, the filesystem, the `guix hash`
subprocess, the `rustbreak` store and the `heck` case-conversion crate) are
modelled either as explicit parameters of an environment record or, for
`heck`, as a small executable model of its documented algorithm.  Stateful
code is state-passing (`World`/`Carguix` records); fallible code returns
`Except`; Rust panics are modelled by a dedicated `panic` error alternative.
-/

deriving instance DecidableEq for Except

/-- Association-list lookup; models `HashMap::get` / `rustbreak` retrieval
of a key (`Ok` on a hit, `BreakError::NotFound` mapped to `none`). -/
def lookupAssoc {κ ν : Type} [DecidableEq κ] (k : κ) : List (κ × ν) → Option ν
  | [] => none
  | (k', v) :: rest => if k' = k then some v else lookupAssoc k rest

/-- Association-list insertion; models `HashMap::insert` (replace the
binding when the key is present, append it otherwise). -/
def insertAssoc {κ ν : Type} [DecidableEq κ] (k : κ) (v : ν) :
    List (κ × ν) → List (κ × ν)
  | [] => [(k, v)]
  | (k', v') :: rest =>
      if k' = k then (k, v) :: rest else (k', v') :: insertAssoc k v rest



/-- Models Rust's `str::split(' ')`: split at every space, keeping empty
tokens, never returning an empty list. -/
def splitSpaceAux : List Char → List Char → List String
  | [], cur => [String.mk cur.reverse]
  | c :: rest, cur =>
      if c = ' ' then String.mk cur.reverse :: splitSpaceAux rest []
      else splitSpaceAux rest (c :: cur)

def splitOnSpace (s : String) : List String :=
  splitSpaceAux s.toList []

/-- Models Rust's `str::trim`: strip leading and trailing whitespace. -/
def trimString (s : String) : String :=
  String.mk
    (((s.toList.dropWhile Char.isWhitespace).reverse.dropWhile
      Char.isWhitespace).reverse)

/-- Models Rust's `Iterator::collect::<Result<Vec<_>, _>>`: the values in
order when every element is `Ok`, otherwise the first error. -/
def collectExcept {ε α : Type} : List (Except ε α) → Except ε (List α)
  | [] => .ok []
  | .error e :: _ => .error e
  | .ok a :: rest => (collectExcept rest).map (a :: ·)







/-!  ## Models of external collaborator error types

Each opaque third-party error (std::io, rustbreak, reqwest, shellfn,
semver, crates_index, url parsing) is modelled as a wrapper around a
message string, except `rustbreak::BreakError` whose `NotFound`
alternative is semantically meaningful to the cache code. -/

structure IoError where
  msg : String
deriving DecidableEq

inductive BreakError where
  | NotFound
  | other (msg : String)
deriving DecidableEq

structure ReqwestError where
  msg : String
deriving DecidableEq

structure ShellError where
  msg : String
deriving DecidableEq

structure SemVerError where
  msg : String
deriving DecidableEq

structure ReqParseError where
  msg : String
deriving DecidableEq

structure IndexError where
  msg : String
deriving DecidableEq

structure UrlError where
  msg : String
deriving DecidableEq

/-!  ## Model of the crates.io index (the `crates_index` collaborator) -/

/-- One dependency record of an index version (`crates_index::Dependency`):
`crate_name()` and `requirement()`. -/
structure Dependency where
  name : String
  requirement : String
deriving DecidableEq

/-- One published version record (`crates_index::Version`): `name()`,
`version()` and `dependencies()`. -/
structure IndexVersion where
  name : String
  version : String
  dependencies : List Dependency
deriving DecidableEq

/-- A crate's index file (`crates_index::Crate`): its name and the ordered
list of published version records.  `crates_index` guarantees at least one
version; `latest_version` (the last record) is modelled totally with a
sentinel for the empty case, which real index data never exhibits. -/
structure Crate where
  name : String
  versions : List IndexVersion
deriving DecidableEq

def Crate.latest_version (c : Crate) : IndexVersion :=
  c.versions.getLastD ⟨"", "", []⟩

/-!  ## Model of the `heck` collaborator (`to_kebab_case`)

`heck` splits the input into words (boundaries at non-alphanumeric
characters, at a lower-case letter or digit followed by an upper-case
letter, and before the last upper-case letter of an acronym run followed
by a lower-case letter), lower-cases each word and joins them with a
hyphen.  Modelled here for the ASCII inputs crate names consist of. -/

def kebabFlush (cur : List Char) (ws : List (List Char)) :
    List (List Char) :=
  if cur.isEmpty then ws else cur :: ws

def kebabSplitWords : List Char → Option Char → List Char →
    List (List Char)
  | cur, _, [] => kebabFlush cur []
  | cur, prev, c :: rest =>
      if c.isAlphanum then
        let boundary :=
          match prev with
          | none => false
          | some p =>
              ((p.isLower || p.isDigit) && c.isUpper) ||
              (p.isUpper && c.isUpper &&
                (match rest with
                 | n :: _ => n.isLower
                 | [] => false))
        if boundary then
          kebabFlush cur (kebabSplitWords [c] (some c) rest)
        else
          kebabSplitWords (cur ++ [c]) (some c) rest
      else
        kebabFlush cur (kebabSplitWords [] none rest)

def toKebabCase (s : String) : String :=
  String.intercalate "-"
    ((kebabSplitWords [] none s.toList).map
      (fun w => String.mk (w.map Char.toLower)))

namespace Errors

/-- The modular layer's error enum (`src/errors.rs`).  Payloads follow the
source; `#[error(cause)]` sub-errors are carried as constructor fields. -/
inductive CarguixError where
  | TmpdirError (cause : IoError)
  | HashdbError (cause : BreakError)
  | IndexUpdateError (cause : IndexError)
  | CratePackagingFailed (name : String) (version : Option String)
  | CrateNotFound (name : String)
  | HashRetrieveFailed (cause : BreakError) (key : String)
  | CrateDownloadError (cause : ReqwestError) (name : String)
  | FileCreationFailed (cause : IoError) (name : String)
  | HashInsertionFailed (cause : BreakError) (key : String)
  | HashDatabaseFlushFailed (cause : BreakError)
  | GuixHashError (cause : ShellError) (name : String)
  | CopyError (cause : IoError) (name : String)
  | NoMatchingVersion (name : String) (version : String)
  | NoVersionMatchingRequirement (name : String) (requirement : String)
  | VersionParsingError (cause : SemVerError) (name : String)
      (requirement : String)
  | RequirementParsingError (cause : ReqParseError) (name : String)
      (requirement : String)
  | DependencyProcessingFailed (cause : CarguixError) (name : String)
      (version : String)
  | ManifestParsingError (msg : String) (path : String)
  | NoPackageInManifest (path : String)
  | TemplateCompilationFailed (msg : String)
  | RenderError (msg : String)
  | UrlParsingError (cause : UrlError) (url : String)
  | UrlNotAFilePath (url : String)
  | BadLockFileDependency (dep : String)
  | PackageNotFoundInLock (name : String) (version : String)
  | LockFileReadError (cause : IoError)
  | LockFileParsingError (msg : String)
  | CanonicalizationFailed (cause : IoError) (path : String)
deriving DecidableEq

end Errors

/-!  ## Collaborator environment

The semver library is abstracted over a linearly ordered type `V` of
parsed versions: `parseVersion` models `semver::Version::parse`,
`parseReq` models `VersionReq::parse` composed with `matches` (a parsed
requirement is its matching predicate), `versionToString` models
`Version::to_string`.  `index` models the process-wide crates.io index
handle; the remaining fields model the I/O collaborators used by
`src/main.rs` (reqwest, std::fs, the `guix hash` subprocess and the
rustbreak store). -/

structure Env (V : Type) where
  index : String → Option Crate
  parseVersion : String → Except SemVerError V
  parseReq : String → Except ReqParseError (V → Bool)
  versionToString : V → String
  httpGet : String → Except ReqwestError Unit
  fileCreate : String → Except IoError Unit
  copyStream : String → Except IoError Unit
  guixHash : String → Except ShellError String
  flushOk : Except BreakError Unit
  tmpdir : String
  tmpdirNew : Except IoError Unit
  dbOpen : Except BreakError (List ((String × String) × String))
  indexExists : Bool
  retrieveOrUpdate : Except IndexError Unit

namespace Lib

/-- `RegistrySource` (src/crate_ref/registry_source.rs): holds one
concrete index version record. -/
structure RegistrySource where
  crate_version : IndexVersion
deriving DecidableEq

def RegistrySource.crate_name (s : RegistrySource) : String :=
  s.crate_version.name

def RegistrySource.package_name (s : RegistrySource) : String :=
  toKebabCase s.crate_name ++ "-" ++ s.crate_version.version

def RegistrySource.version (s : RegistrySource) : String :=
  s.crate_version.version

def RegistrySource.source (s : RegistrySource) : String :=
  "https://crates.io/api/v1/crates/" ++ s.crate_version.name ++ "/" ++
    s.version ++ "/download"

/-- `RegistrySource::highest_matching_crate_version`
(src/crate_ref/registry_source.rs lines 89-128): parse every published
version string (the first parse failure aborts, mirroring
`collect::<Result<Vec<_>, _>>`), stable-sort the `(record, parsed)` pairs
ascending by parsed version (`sort_by_key`, modelled by Mathlib's stable
`insertionSort`), parse the requirement, and scan from the greatest
version down (`rev().find(...)`) for the first satisfying record. -/
def highest_matching_crate_version {V : Type} [LinearOrder V]
    (env : Env V) (crate_name requirement : String) :
    Except Errors.CarguixError IndexVersion :=
  match env.index crate_name with
  | none => .error (.CrateNotFound crate_name)
  | some crate_ =>
    match collectExcept (crate_.versions.map
        (fun cv => (env.parseVersion cv.version).map (fun v => (cv, v)))) with
    | .error e => .error (.VersionParsingError e crate_name requirement)
    | .ok crate_versions =>
      let sorted := List.insertionSort
        (fun (a b : IndexVersion × V) => a.2 ≤ b.2) crate_versions
      match env.parseReq requirement with
      | .error e => .error (.RequirementParsingError e crate_name requirement)
      | .ok version_req =>
        match sorted.reverse.find? (fun p => version_req p.2) with
        | some p => .ok p.1
        | none =>
            .error (.NoVersionMatchingRequirement crate_name requirement)

/-- `SimpleSource` (src/crate_ref.rs / src/crate_ref/simple_source.rs): an
inert pre-resolved snapshot. -/
inductive SimpleSource where
  | mk (crate_name version source : String)
      (dependencies : List SimpleSource)

def SimpleSource.crate_name : SimpleSource → String
  | .mk n _ _ _ => n

def SimpleSource.version : SimpleSource → String
  | .mk _ v _ _ => v

def SimpleSource.source : SimpleSource → String
  | .mk _ _ s _ => s

def SimpleSource.package_name (s : SimpleSource) : String :=
  toKebabCase s.crate_name ++ "-" ++ s.version

/-- One `[[package]]` record of a parsed Cargo.lock
(src/crate_ref/lock_source.rs `CargoLockPackage`). -/
structure CargoLockPackage where
  name : String
  version : String
  source : Option String
  dependencies : List String
deriving DecidableEq

/-- A parsed Cargo.lock manifest (src/crate_ref/lock_source.rs
`CargoLock`). -/
structure CargoLock where
  package : List CargoLockPackage
deriving DecidableEq

/-- `LockSource` (src/crate_ref/lock_source.rs): one lock record plus a
back-reference to the whole manifest. -/
structure LockSource where
  crate_name : String
  version : String
  package : CargoLockPackage
  manifest : CargoLock
deriving DecidableEq

/-- `LockSource::new`: find the record matching the name (and the pinned
version when supplied); absence is `PackageNotFoundInLock`. -/
def LockSource.new (crate_name : String) (version : Option String)
    (manifest : CargoLock) : Except Errors.CarguixError LockSource :=
  match manifest.package.find?
      (fun package => package.name == crate_name &&
        ((version.map (fun v => package.version == v)).getD true)) with
  | none =>
      .error (.PackageNotFoundInLock crate_name
        (version.getD "any version"))
  | some package =>
      .ok ⟨crate_name, package.version, package, manifest⟩

def LockSource.crate_name' (s : LockSource) : String := s.crate_name

def LockSource.versionFn (s : LockSource) : String := s.package.version

def LockSource.package_name (s : LockSource) : String :=
  toKebabCase s.crate_name ++ "-" ++ s.versionFn

/-- `LockSource::source` (src/crate_ref/lock_source.rs lines 87-97): the
crates.io download URL when the lock record carries a source tag,
otherwise a `file://` locator naming the process's current working
directory (`std::env::current_dir`, modelled as the `cwd` argument). -/
def LockSource.source (cwd : String) (s : LockSource) : String :=
  if s.package.source.isSome then
    "https://crates.io/api/v1/crates/" ++ s.crate_name ++ "/" ++
      s.versionFn ++ "/download"
  else
    "file://" ++ cwd

end Lib

namespace PathSnap

/-!  The `path_source.rs` snapshot of the repository is the trait-based
one: its `PathSource` carries a name-to-path table and its lock-record
children are built by `LockSource::new_with_manifest`, a constructor whose
own source file is superseded in the repository checkout. -/

/-- Modelled from the spec: the lock-source variant that carries the
caller's inherited name-to-path table (spec 4.1/4.3); its fields follow
`src/crate_ref/lock_source.rs`'s `LockSource` plus the `crate_paths`
table that `path_source.rs` passes to `LockSource::new_with_manifest`. -/
structure LockSource where
  crate_name : String
  version : String
  package : Lib.CargoLockPackage
  manifest : Lib.CargoLock
  crate_paths : List (String × String)
deriving DecidableEq

/-- Modelled from the spec: `LockSource::new_with_manifest` (called by
`src/crate_ref/path_source.rs` but absent from the checkout) finds the
lock record matching the name and pinned version exactly as
`LockSource::new` in `src/crate_ref/lock_source.rs` does — absence is a
hard `PackageNotFoundInLock` error — and carries the inherited
name-to-path table along. -/
def LockSource.new_with_manifest (crate_name : String)
    (version : Option String) (manifest : Lib.CargoLock)
    (crate_paths : List (String × String)) :
    Except Errors.CarguixError LockSource :=
  match manifest.package.find?
      (fun package => package.name == crate_name &&
        ((version.map (fun v => package.version == v)).getD true)) with
  | none =>
      .error (.PackageNotFoundInLock crate_name
        (version.getD "any version"))
  | some package =>
      .ok ⟨crate_name, package.version, package, manifest, crate_paths⟩

/-- The `package` section of a parsed Cargo.toml
(`cargo_toml::Package`): only the fields the embedded code reads. -/
structure CargoPackage where
  name : String
  version : String
deriving DecidableEq

/-- `PathSource` (src/crate_ref/path_source.rs): a local crate at a
canonical path with its manifest's package section, the optional sibling
lock file and the accumulated name-to-path table.  The parsed manifest
itself is consulted only during construction (which performs filesystem
I/O and is abstracted as a collaborator below) and is not carried. -/
structure PathSource where
  path : String
  package : CargoPackage
  lock_source : Option LockSource
  crate_paths : List (String × String)
deriving DecidableEq

def PathSource.crate_name (s : PathSource) : String :=
  s.package.name

def PathSource.package_name (s : PathSource) : String :=
  toKebabCase s.crate_name ++ "-" ++ s.package.version

def PathSource.versionFn (s : PathSource) : String :=
  s.package.version

def PathSource.source (s : PathSource) : String :=
  "file://" ++ s.path

/-- A failure of the trait-based dependency enumeration: either a
returned `CarguixError` or a Rust `panic!`/`unimplemented!` abort. -/
inductive Failure where
  | err (e : Errors.CarguixError)
  | panic (msg : String)
deriving DecidableEq

/-- A `Box<dyn CrateRef>` child produced by `PathSource::dependencies`. -/
inductive BoxedCrateRef where
  | lock (s : LockSource)
  | path (s : PathSource)
deriving DecidableEq

/-- The per-dependency-string closure of `PathSource::dependencies`
(src/crate_ref/path_source.rs lines 130-155): split the lock dependency
string on spaces; three tokens build a `LockSource` child against the
same manifest at that name and version; two tokens resolve the name
through the name-to-path table into a `PathSource` child — a missing
table entry is a `panic!` — and any other shape is
`BadLockFileDependency`.  `PathSource::new` performs filesystem I/O and
is abstracted as the `mkPathSource` collaborator. -/
def PathSource.processLockDependency
    (mkPathSource : String → List (String × String) →
      Except Failure PathSource)
    (self : PathSource) (lock_source : LockSource) (dependency : String) :
    Except Failure BoxedCrateRef :=
  let dependency_split := splitOnSpace dependency
  match dependency_split with
  | [crate_name, version, _] =>
      match LockSource.new_with_manifest crate_name (some version)
          lock_source.manifest self.crate_paths with
      | .error e => .error (.err e)
      | .ok child => .ok (.lock child)
  | [crate_name, _] =>
      match lookupAssoc crate_name self.crate_paths with
      | none =>
          .error (.panic ("dependency " ++ crate_name ++ " of " ++
            self.crate_name ++ " path not found"))
      | some crate_path =>
          match mkPathSource crate_path self.crate_paths with
          | .error e => .error e
          | .ok child => .ok (.path child)
  | _ => .error (.err (.BadLockFileDependency dependency))

/-- `PathSource::dependencies` (src/crate_ref/path_source.rs lines
125-161): with a lock source, process every dependency string of its lock
record; without one the code is `unimplemented!`. -/
def PathSource.dependencies
    (mkPathSource : String → List (String × String) →
      Except Failure PathSource)
    (self : PathSource) : Except Failure (List BoxedCrateRef) :=
  match self.lock_source with
  | some lock_source =>
      collectExcept (lock_source.package.dependencies.map
        (PathSource.processLockDependency mkPathSource self lock_source))
  | none => .error (.panic "not implemented")

end PathSnap

namespace Lib

/-- `GitSource` (src/crate_ref/git_source.rs): an empty placeholder whose
every method is `unimplemented!`. -/
structure GitSource where
deriving DecidableEq

/-- `CrateSource` (src/crate_ref.rs): the closed variant set. -/
inductive CrateSource where
  | path (s : PathSnap.PathSource)
  | lock (s : LockSource)
  | git (s : GitSource)
  | registry (s : RegistrySource)
  | simple (s : SimpleSource)

/-- `CrateRef` (src/crate_ref.rs): a crate name plus its source.  The
struct field `crate_name` keeps its source name; the dispatching method
`CrateRef::crate_name` is `crate_nameFn` below (Lean cannot share the
name), returning `Except String _` whose error is the message of the
`unimplemented!` panic raised by the `GitSource` arm. -/
structure CrateRef where
  crate_name : String
  source : CrateSource

def CrateRef.crate_nameFn (r : CrateRef) : Except String String :=
  match r.source with
  | .path s => .ok s.crate_name
  | .lock s => .ok s.crate_name
  | .simple s => .ok s.crate_name
  | .git _ => .error "not implemented"
  | .registry s => .ok s.crate_name

/-- `CrateRef::definition_name` (src/crate_ref.rs lines 126-128):
`"rust-"` followed by the kebab-cased crate name. -/
def CrateRef.definition_name (r : CrateRef) : Except String String :=
  r.crate_nameFn.map (fun n => "rust-" ++ toKebabCase n)

/-- `CrateRef::package_name` (src/crate_ref.rs lines 130-141): `"rust-"`
followed by the dispatched variant-level package name. -/
def CrateRef.package_nameFn (r : CrateRef) : Except String String :=
  (match r.source with
   | .path s => Except.ok s.package_name
   | .lock s => Except.ok s.package_name
   | .simple s => Except.ok s.package_name
   | .git _ => Except.error "not implemented"
   | .registry s => Except.ok s.package_name).map
    (fun pn => "rust-" ++ pn)

end Lib

namespace Guix

/-- A parsed URL (the `reqwest::Url` collaborator): the embedded code
reads only its scheme and its optional file-path payload. -/
structure Url where
  scheme : String
  body : String
deriving DecidableEq

/-- The mutable world of src/guix.rs: the process-wide rustbreak store
`HASHDB` plus instrumentation counting invocations of the two effectful
collaborators (HTTP download and the `guix hash` subprocess) and the
files created under the scratch directory. -/
structure World where
  hashdb : List (String × String)
  downloads : Nat
  hashes : Nat
  filesCreated : List String
deriving DecidableEq

/-- The collaborators of src/guix.rs: url parsing, `Url::to_file_path`,
`reqwest::get`, `File::create`, `std::io::copy`, `Path::is_dir`, the two
`guix hash` shell invocations, the scratch directory `TMPDIR`, the
SHA-256/base64 scratch-file name component, and the result of
`HASHDB.flush()`. -/
structure HashEnv where
  parseUrl : String → Except UrlError Url
  toFilePath : Url → Option String
  httpGet : Url → Except ReqwestError Unit
  fileCreate : String → Except IoError Unit
  copyStream : String → Except IoError Unit
  isDir : String → Bool
  guixHashFile : String → Except ShellError String
  guixHashDir : String → Except ShellError String
  tmpdir : String
  urlDigestName : String → String
  flushOk : Except BreakError Unit

/-- `guix_hash` (src/guix.rs lines 77-95): one `guix hash` subprocess
invocation — `-rx` for a directory, plain for a file — with the output
trimmed.  The instrumentation counter records the invocation. -/
def guix_hash (env : HashEnv) (path : String) (w : World) :
    Except ShellError String × World :=
  let w' := { w with hashes := w.hashes + 1 }
  ((if env.isDir path then env.guixHashDir path
    else env.guixHashFile path).map trimString, w')

/-- The artifact-path step of `hash` (src/guix.rs lines 47-64): the local
file path for a `file`-scheme locator, otherwise a download of the
artifact into the scratch directory (named after the locator's SHA-256
digest). -/
def resolveArtifactPath (env : HashEnv) (url_str : String) (url : Url)
    (w : World) : Except Errors.CarguixError String × World :=
  if url.scheme == "file" then
    match env.toFilePath url with
    | none => (Except.error (Errors.CarguixError.UrlNotAFilePath
        url_str), w)
    | some p => (Except.ok p, w)
  else
    let w := { w with downloads := w.downloads + 1 }
    match env.httpGet url with
    | .error e =>
        (Except.error (Errors.CarguixError.CrateDownloadError e
          url_str), w)
    | .ok _ =>
      let downloaded_crate_path :=
        env.tmpdir ++ "/" ++ env.urlDigestName url_str ++ ".tar.gz"
      match env.fileCreate downloaded_crate_path with
      | .error e =>
          (Except.error (Errors.CarguixError.FileCreationFailed e
            url_str), w)
      | .ok _ =>
        let w := { w with
          filesCreated := downloaded_crate_path :: w.filesCreated }
        match env.copyStream downloaded_crate_path with
        | .error e =>
            (Except.error (Errors.CarguixError.CopyError e url_str),
              w)
        | .ok _ => (Except.ok downloaded_crate_path, w)

/-- `hash` (src/guix.rs lines 38-75): the content-hash cache keyed by
source locator.  Check `HASHDB` first (a `NotFound` miss falls through,
any hit returns immediately); on a miss parse the locator, resolve the
artifact path (`resolveArtifactPath` above), hash via `guix_hash`, then
insert and flush before returning.  Errors return with the world as
mutated so far. -/
def hash (env : HashEnv) (url_str : String) (w : World) :
    Except Errors.CarguixError String × World :=
  match lookupAssoc url_str w.hashdb with
  | some h => (.ok h, w)
  | none =>
    match env.parseUrl url_str with
    | .error e => (.error (.UrlParsingError e url_str), w)
    | .ok url =>
      match resolveArtifactPath env url_str url w with
      | (.error e, w) => (.error e, w)
      | (.ok downloaded_crate_path, w) =>
        match guix_hash env downloaded_crate_path w with
        | (.error e, w) =>
            (.error (.GuixHashError e url_str), w)
        | (.ok h, w) =>
          let w := { w with hashdb := insertAssoc url_str h w.hashdb }
          match env.flushOk with
          | .error e => (.error (.HashDatabaseFlushFailed e), w)
          | .ok _ => (.ok h, w)

end Guix

namespace Main

/-- The driver snapshot's error enum (src/main.rs lines 32-82).  Payloads
follow the source; note its hash-database keys are `(name, version)`
pairs, unlike `src/errors.rs`. -/
inductive CarguixError where
  | TmpdirError (cause : IoError)
  | HashdbError (cause : BreakError)
  | IndexUpdateError (cause : IndexError)
  | CratePackagingFailed (name : String) (version : Option String)
  | CrateNotFound (name : String)
  | HashRetrieveFailed (cause : BreakError) (key : String × String)
  | CrateDownloadError (cause : ReqwestError) (name : String)
  | FileCreationFailed (cause : IoError) (name : String)
  | HashInsertionFailed (cause : BreakError) (key : String × String)
  | HashDatabaseFlushFailed (cause : BreakError)
  | GuixHashError (cause : ShellError) (name : String)
  | CopyError (cause : IoError) (name : String)
  | NoMatchingVersion (name : String) (version : String)
  | NoVersionMatchingRequirement (name : String) (requirement : String)
  | VersionParsingError (cause : SemVerError) (name : String)
      (requirement : String)
  | RequirementParsingError (cause : ReqParseError) (name : String)
      (requirement : String)
  | DependencyProcessingFailed (cause : CarguixError) (name : String)
      (version : String)
deriving DecidableEq

/-- A node of the `std::error::Error` source chain: either another
`CarguixError` (the boxed cause of `DependencyProcessingFailed`) or one
of the collaborator errors. -/
inductive ErrorCause where
  | carguix (e : CarguixError)
  | io (e : IoError)
  | break_ (e : BreakError)
  | req (e : ReqwestError)
  | shell (e : ShellError)
  | semver (e : SemVerError)
  | reqparse (e : ReqParseError)
  | indexErr (e : IndexError)
deriving DecidableEq

/-- `Error::source` of `Main.CarguixError`, following the
`#[error(cause)]` attributes of src/main.rs. -/
def CarguixError.cause : CarguixError → Option ErrorCause
  | .TmpdirError e => some (.io e)
  | .HashdbError e => some (.break_ e)
  | .IndexUpdateError e => some (.indexErr e)
  | .CratePackagingFailed _ _ => none
  | .CrateNotFound _ => none
  | .HashRetrieveFailed e _ => some (.break_ e)
  | .CrateDownloadError e _ => some (.req e)
  | .FileCreationFailed e _ => some (.io e)
  | .HashInsertionFailed e _ => some (.break_ e)
  | .HashDatabaseFlushFailed e => some (.break_ e)
  | .GuixHashError e _ => some (.shell e)
  | .CopyError e _ => some (.io e)
  | .NoMatchingVersion _ _ => none
  | .NoVersionMatchingRequirement _ _ => none
  | .VersionParsingError e _ _ => some (.semver e)
  | .RequirementParsingError e _ _ => some (.reqparse e)
  | .DependencyProcessingFailed e _ _ => some (.carguix e)

/-- The cause chain below an error: what `print_error`'s `while let`
walk visits after logging the error itself.  Collaborator errors are
modelled as chain leaves. -/
def CarguixError.causeChain : CarguixError → List ErrorCause
  | .DependencyProcessingFailed e _ _ => .carguix e :: causeChain e
  | e => match e.cause with
         | none => []
         | some c => [c]

/-- `print_error` (src/main.rs lines 381-388): logs the error, then every
node of its cause chain. -/
def print_error (e : CarguixError) : List ErrorCause :=
  .carguix e :: e.causeChain

/-- `CrateRef` (src/main.rs lines 333-345): a resolved name and version. -/
structure CrateRef where
  name : String
  version : String
deriving DecidableEq

def CrateRef.new (name version : String) : CrateRef :=
  ⟨name, version⟩

/-- `CratePackage` (src/main.rs lines 284-298).  Its rendering to an
s-expression (`to_package_sexpr`) is out-of-scope pure formatting and is
not carried. -/
structure CratePackage where
  crate_ref : CrateRef
  hash : String
  dependencies : List CrateRef
deriving DecidableEq

def CratePackage.new (name version hash : String)
    (dependencies : List CrateRef) : CratePackage :=
  ⟨CrateRef.new name version, hash, dependencies⟩

/-- The mutable state of the `Carguix` walker (src/main.rs lines 84-91):
the FIFO work queue, the dedup set (a list with set semantics) and the
`(name, version)`-keyed hash store.  The index handle and scratch
directory live in `Env`. -/
structure Carguix where
  crates : List (String × Option String)
  already_added_crates : List (String × Option String)
  hashdb : List ((String × String) × String)
deriving DecidableEq

/-- Insertion into the `HashSet` of already-added crates. -/
def insertKey (k : String × Option String)
    (l : List (String × Option String)) : List (String × Option String) :=
  if k ∈ l then l else k :: l

/-- `Carguix::get_crate_hash` (src/main.rs lines 142-176): cache lookup
keyed by `(name, version)`; on a miss download the crate archive into the
scratch directory, hash it with `guix hash` (`Carguix::guix_hash` trims
the subprocess output), insert and flush before returning.  The
rustbreak retrieval of the modelled association list either hits or
misses; the store's own I/O failure alternative
(`HashRetrieveFailed`) cannot arise in the model. -/
def get_crate_hash {V : Type} (env : Env V) (st : Carguix)
    (crate_name version : String) :
    Except CarguixError String × Carguix :=
  let key := (crate_name, version)
  match lookupAssoc key st.hashdb with
  | some hash => (.ok hash, st)
  | none =>
    let url := "https://crates.io/api/v1/crates/" ++ crate_name ++ "/" ++
      version ++ "/download"
    match env.httpGet url with
    | .error e => (.error (.CrateDownloadError e crate_name), st)
    | .ok _ =>
      let downloaded_crate_path :=
        env.tmpdir ++ "/" ++ crate_name ++ "-" ++ version ++ ".tar.gz"
      match env.fileCreate downloaded_crate_path with
      | .error e => (.error (.FileCreationFailed e crate_name), st)
      | .ok _ =>
        match env.copyStream downloaded_crate_path with
        | .error e => (.error (.CopyError e crate_name), st)
        | .ok _ =>
          match env.guixHash downloaded_crate_path with
          | .error e => (.error (.GuixHashError e crate_name), st)
          | .ok out =>
            let hash := trimString out
            let st := { st with
              hashdb := insertAssoc key hash st.hashdb }
            match env.flushOk with
            | .error e => (.error (.HashDatabaseFlushFailed e), st)
            | .ok _ => (.ok hash, st)

/-- `Carguix::dependency_crate_ref` (src/main.rs lines 224-265): look the
dependency's crate up in the index, parse all its published version
strings (first failure aborts), sort ascending (`Vec::sort`, a stable
sort, modelled by `insertionSort`), parse the requirement, and take the
greatest version satisfying it, rendered back to a string. -/
def dependency_crate_ref {V : Type} [LinearOrder V] (env : Env V)
    (dependency : Dependency) : Except CarguixError CrateRef :=
  let crate_name := dependency.name
  match env.index crate_name with
  | none => .error (.CrateNotFound crate_name)
  | some crate_ =>
    match collectExcept (crate_.versions.map
        (fun cv => env.parseVersion cv.version)) with
    | .error e =>
        .error (.VersionParsingError e crate_name dependency.requirement)
    | .ok crate_versions =>
      let sorted := List.insertionSort (fun a b : V => a ≤ b) crate_versions
      match env.parseReq dependency.requirement with
      | .error e =>
          .error (.RequirementParsingError e crate_name
            dependency.requirement)
      | .ok version_req =>
        match sorted.reverse.find? (fun v => version_req v) with
        | some highest_matching_version =>
            .ok (CrateRef.new crate_name
              (env.versionToString highest_matching_version))
        | none =>
            .error (.NoVersionMatchingRequirement crate_name
              dependency.requirement)

/-- `Carguix::crate_package` (src/main.rs lines 186-222): resolve the
requested version (default: the index's latest record), find its version
record, resolve every dependency — wrapping any failure in
`DependencyProcessingFailed` with this crate's name and version — then
obtain the content hash and assemble the `CratePackage`. -/
def crate_package {V : Type} [LinearOrder V] (env : Env V) (st : Carguix)
    (crate_ : Crate) (version : Option String) :
    Except CarguixError CratePackage × Carguix :=
  let version := version.getD crate_.latest_version.version
  match crate_.versions.find? (fun cv => cv.version == version) with
  | none => (.error (.NoMatchingVersion crate_.name version), st)
  | some crate_version =>
    match collectExcept (crate_version.dependencies.map
        (dependency_crate_ref env)) with
    | .error e =>
        (.error (.DependencyProcessingFailed e crate_.name version), st)
    | .ok dependencies =>
      match get_crate_hash env st crate_.name version with
      | (.error e, st') => (.error e, st')
      | (.ok hash, st') =>
          (.ok (CratePackage.new crate_.name version hash dependencies),
            st')

/-- `Carguix::process_crate` (src/main.rs lines 118-140): look the crate
up, build its package (any packaging failure collapses to
`CratePackagingFailed`, discarding the inner error), enqueue every
resolved dependency at its exact version, and record the queue key in the
dedup set. -/
def process_crate {V : Type} [LinearOrder V] (env : Env V) (st : Carguix)
    (crate_name : String) (crate_version : Option String) :
    Except CarguixError CratePackage × Carguix :=
  match env.index crate_name with
  | none => (.error (.CrateNotFound crate_name), st)
  | some crate_index =>
    match crate_package env st crate_index crate_version with
    | (.error _, st') =>
        (.error (.CratePackagingFailed crate_name crate_version), st')
    | (.ok crate_pkg, st') =>
        (.ok crate_pkg,
          { st' with
            crates := st'.crates ++ crate_pkg.dependencies.map
              (fun dependency => (dependency.name, some dependency.version)),
            already_added_crates :=
              insertKey (crate_name, crate_version)
                st'.already_added_crates })

/-- The `while let` skip loop of `Iterator::next` (src/main.rs lines
268-282), recursing on the queue: pop from the front, discard keys
already in the dedup set, process the first fresh key. -/
def nextAux {V : Type} [LinearOrder V] (env : Env V)
    (already : List (String × Option String))
    (hashdb : List ((String × String) × String)) :
    List (String × Option String) →
    Option (Except CarguixError CratePackage × Carguix)
  | [] => none
  | k :: rest =>
      if k ∈ already then nextAux env already hashdb rest
      else some (process_crate env ⟨rest, already, hashdb⟩ k.1 k.2)

/-- `Iterator::next` for `Carguix`. -/
def Carguix.next {V : Type} [LinearOrder V] (env : Env V) (st : Carguix) :
    Option (Except CarguixError CratePackage × Carguix) :=
  nextAux env st.already_added_crates st.hashdb st.crates

/-- Draining the iterator, fuelled: the queue can grow while items are
processed, so the loop is not structurally terminating; `fuel` bounds the
number of yielded items. -/
def Carguix.run {V : Type} [LinearOrder V] (env : Env V) :
    Nat → Carguix → List (Except CarguixError CratePackage)
  | 0, _ => []
  | fuel + 1, st =>
      match st.next env with
      | none => []
      | some (r, st') => r :: Carguix.run env fuel st'

/-- The packages of a drained run: the `Ok` results in order. -/
def Carguix.runPackages {V : Type} [LinearOrder V] (env : Env V)
    (fuel : Nat) (st : Carguix) : List CratePackage :=
  (Carguix.run env fuel st).filterMap (fun r => r.toOption)

/-- The identity of an emitted package definition. -/
def CratePackage.identity (p : CratePackage) : String × String :=
  (p.crate_ref.name, p.crate_ref.version)

/-- The command line (src/main.rs lines 18-30). -/
structure Cli where
  crate_name : String
  update : Bool
  version : Option String
deriving DecidableEq

/-- `Carguix::new` (src/main.rs lines 94-109): create the scratch
directory, open the hash store, push the root key, and fetch the index
when it does not exist locally. -/
def Carguix.new {V : Type} (env : Env V) (crate_name : String)
    (crate_version : Option String) : Except CarguixError Carguix :=
  match env.tmpdirNew with
  | .error e => .error (.TmpdirError e)
  | .ok _ =>
    match env.dbOpen with
    | .error e => .error (.HashdbError e)
    | .ok db =>
      let carguix : Carguix := ⟨[(crate_name, crate_version)], [], db⟩
      if env.indexExists then .ok carguix
      else
        match env.retrieveOrUpdate with
        | .error e => .error (.IndexUpdateError e)
        | .ok _ => .ok carguix

/-- What the `main` loop emits: the printed package definitions and the
logged errors with their walked cause chains. -/
structure MainOutput where
  printed : List CratePackage
  logged : List ErrorCause
deriving DecidableEq

/-- The error results of a run. -/
def errOf {ε α : Type} : Except ε α → Option ε
  | .error e => some e
  | .ok _ => none

/-- `main` (src/main.rs lines 365-379): construct the walker (a failure
here aborts with a non-zero exit), optionally refresh the index, then
drain the iterator, printing each successful definition and logging each
error with its cause chain — per-crate failures never abort the loop and
the process exits zero. -/
def mainRun {V : Type} [LinearOrder V] (env : Env V) (args : Cli)
    (fuel : Nat) : Except CarguixError MainOutput :=
  match Carguix.new env args.crate_name args.version with
  | .error e => .error e
  | .ok carguix =>
    match (if args.update then env.retrieveOrUpdate else .ok ()) with
    | .error e => .error (.IndexUpdateError e)
    | .ok _ =>
      let results := Carguix.run env fuel carguix
      .ok { printed := results.filterMap (fun r => r.toOption),
            logged :=
              (results.filterMap errOf).flatMap print_error }

end Main

/-!  ## Concrete collaborator instantiations

Closed environments used to exercise the embedded code on concrete
inputs.  Parsed versions are instantiated at `V := Nat`; the version
table maps the few version strings occurring below, mirroring the semver
library's verdicts on them (`"not-a-semver"` does not parse). -/

/-- The parsed form of the requirement `"^1"`: matches versions in
`[1.0.0, 2.0.0)`. -/
def caretOneMatches : Nat → Bool := fun v => decide (100 ≤ v ∧ v < 200)

def baseEnv : Env Nat where
  index := fun _ => none
  parseVersion := fun s =>
    if s = "0.1.0" then .ok 10
    else if s = "1.0.0" then .ok 100
    else if s = "1.2.0" then .ok 120
    else .error ⟨s⟩
  parseReq := fun r =>
    if r = "^1" then .ok caretOneMatches else .error ⟨r⟩
  versionToString := fun v =>
    if v = 10 then "0.1.0"
    else if v = 100 then "1.0.0"
    else if v = 120 then "1.2.0"
    else "0.0.0"
  httpGet := fun _ => .ok ()
  fileCreate := fun _ => .ok ()
  copyStream := fun _ => .ok ()
  guixHash := fun _ => .ok "0hash"
  flushOk := .ok ()
  tmpdir := "/tmp/carguix"
  tmpdirNew := .ok ()
  dbOpen := .ok []
  indexExists := true
  retrieveOrUpdate := .ok ()

/-- Registry with one crate `a` whose versions are listed unsorted, two
of them satisfying `^1`, so highest-matching must pick `1.2.0` (neither
the first-listed nor the lowest compatible). -/
def c1Env : Env Nat :=
  { baseEnv with
    index := fun n =>
      if n = "a" then
        some ⟨"a", [⟨"a", "0.1.0", []⟩, ⟨"a", "1.2.0", []⟩,
          ⟨"a", "1.0.0", []⟩]⟩
      else none }

/-- Registry where crate `a` has one parseable matching version and one
unparsable version string. -/
def c5Env : Env Nat :=
  { baseEnv with
    index := fun n =>
      if n = "a" then
        some ⟨"a", [⟨"a", "1.0.0", []⟩, ⟨"a", "not-a-semver", []⟩]⟩
      else none }

/-- A dependency cycle back to the root: `a@1.0.0` depends on `b`,
`b@1.0.0` depends on `a`. -/
def c2cEnv : Env Nat :=
  { baseEnv with
    index := fun n =>
      if n = "a" then some ⟨"a", [⟨"a", "1.0.0", [⟨"b", "^1"⟩]⟩]⟩
      else if n = "b" then some ⟨"b", [⟨"b", "1.0.0", [⟨"a", "^1"⟩]⟩]⟩
      else none,
    dbOpen := .ok [(("a", "1.0.0"), "0ha"), (("b", "1.0.0"), "0hb")] }

/-- The walker state `Carguix::new` builds for root `a` with no pinned
version under `c2cEnv`. -/
def c2cState : Main.Carguix :=
  ⟨[("a", none)], [],
    [(("a", "1.0.0"), "0ha"), (("b", "1.0.0"), "0hb")]⟩

/-- A diamond: root `a` depends on `b` and `c`, both depending on `d`.
Every crate record carries the looked-up name, so the index is
name-coherent. -/
def c2wIndex : String → Option Crate := fun n =>
  if n = "a" then some ⟨n, [⟨"a", "1.0.0", [⟨"b", "^1"⟩, ⟨"c", "^1"⟩]⟩]⟩
  else if n = "b" then some ⟨n, [⟨"b", "1.0.0", [⟨"d", "^1"⟩]⟩]⟩
  else if n = "c" then some ⟨n, [⟨"c", "1.0.0", [⟨"d", "^1"⟩]⟩]⟩
  else if n = "d" then some ⟨n, [⟨"d", "1.0.0", []⟩]⟩
  else none

def c2wEnv : Env Nat :=
  { baseEnv with
    index := c2wIndex,
    dbOpen := .ok [(("a", "1.0.0"), "0ha"), (("b", "1.0.0"), "0hb"),
      (("c", "1.0.0"), "0hc"), (("d", "1.0.0"), "0hd")] }

def c2wState : Main.Carguix :=
  ⟨[("a", some "1.0.0")], [],
    [(("a", "1.0.0"), "0ha"), (("b", "1.0.0"), "0hb"),
      (("c", "1.0.0"), "0hc"), (("d", "1.0.0"), "0hd")]⟩

/-- Root `a` resolvable and pre-hashed, dependency `b` present in the
index but failing at download time (the network collaborator errors). -/
def c4Env : Env Nat :=
  { baseEnv with
    index := fun n =>
      if n = "a" then some ⟨"a", [⟨"a", "1.0.0", [⟨"b", "^1"⟩]⟩]⟩
      else if n = "b" then some ⟨"b", [⟨"b", "1.0.0", []⟩]⟩
      else none,
    dbOpen := .ok [(("a", "1.0.0"), "0ha")],
    httpGet := fun _ => .error ⟨"offline"⟩ }

/-- Crate `c` whose sole version depends on a crate absent from the
index. -/
def c8Env : Env Nat :=
  { baseEnv with
    index := fun n =>
      if n = "c" then some ⟨"c", [⟨"c", "1.0.0", [⟨"missing", "^1"⟩]⟩]⟩
      else none }

def c8Crate : Crate := ⟨"c", [⟨"c", "1.0.0", [⟨"missing", "^1"⟩]⟩]⟩

/-- A hash-cache environment resolving one `file://` locator through the
external `guix hash` collaborator (whose output carries trailing
whitespace, exercising the trim). -/
def hashEnvW : Guix.HashEnv where
  parseUrl := fun s =>
    if s = "file:///src/foo" then .ok ⟨"file", "/src/foo"⟩
    else .error ⟨s⟩
  toFilePath := fun u => if u.scheme = "file" then some u.body else none
  httpGet := fun _ => .ok ()
  fileCreate := fun _ => .ok ()
  copyStream := fun _ => .ok ()
  isDir := fun _ => false
  guixHashFile := fun _ => .ok "0abc123 "
  guixHashDir := fun _ => .ok "0dir "
  tmpdir := "/tmp/x"
  urlDigestName := fun _ => "digest"
  flushOk := .ok ()

/-- The same cache environment with a failing `guix hash` subprocess. -/
def hashEnvErr : Guix.HashEnv :=
  { hashEnvW with guixHashFile := fun _ => .error ⟨"guix hash failed"⟩ }

def emptyWorld : Guix.World := ⟨[], 0, 0, []⟩

/-- The world after a first successful miss under `hashEnvW`. -/
def afterFirstWorld : Guix.World :=
  ⟨[("file:///src/foo", "0abc123")], 0, 1, []⟩

/-- A lock manifest with a registry-tagged record (`serde`) and a local
record (`app`) whose dependency strings exercise every token shape. -/
def c6Manifest : Lib.CargoLock :=
  ⟨[⟨"app", "0.1.0", none,
      ["serde 1.0.104 (registry+https://github.com/rust-lang/crates.io-index)",
       "local-crate 0.1.0"]⟩,
    ⟨"serde", "1.0.104",
      some "registry+https://github.com/rust-lang/crates.io-index", []⟩]⟩

def c6Paths : List (String × String) := [("local-crate", "/ws/local-crate")]

def c6Lock : PathSnap.LockSource :=
  ⟨"app", "0.1.0",
    ⟨"app", "0.1.0", none,
      ["serde 1.0.104 (registry+https://github.com/rust-lang/crates.io-index)",
       "local-crate 0.1.0"]⟩,
    c6Manifest, c6Paths⟩

def c6Self : PathSnap.PathSource :=
  ⟨"/ws/app", ⟨"app", "0.1.0"⟩, some c6Lock, c6Paths⟩

/-- The `PathSource::new` collaborator for the concrete runs: building a
path source at the given path always succeeds. -/
def c6MkPathSource : String → List (String × String) →
    Except PathSnap.Failure PathSnap.PathSource :=
  fun p t => .ok ⟨p, ⟨"local-crate", "0.1.0"⟩, none, t⟩

/-- A lock record carrying a registry source tag. -/
def c10Tagged : Lib.LockSource :=
  ⟨"serde", "1.0.104",
    ⟨"serde", "1.0.104",
      some "registry+https://github.com/rust-lang/crates.io-index", []⟩,
    ⟨[]⟩⟩

/-- A lock record with no source tag (a local unpublished crate). -/
def c10Untagged : Lib.LockSource :=
  ⟨"local-crate", "0.1.0", ⟨"local-crate", "0.1.0", none, []⟩, ⟨[]⟩⟩

/-- A second untagged lock record describing a different crate. -/
def c10Untagged' : Lib.LockSource :=
  ⟨"other-crate", "0.2.0", ⟨"other-crate", "0.2.0", none, []⟩, ⟨[]⟩⟩

/-!  # Theorems

Helper lemmas first, then per-claim theorems with their witnesses and
counterexamples. -/

theorem lookupAssoc_insertAssoc_self {κ ν : Type} [DecidableEq κ]
    (k : κ) (v : ν) (l : List (κ × ν)) :
    lookupAssoc k (insertAssoc k v l) = some v := by
  induction l with
  | nil => simp [insertAssoc, lookupAssoc]
  | cons hd tl ih =>
      obtain ⟨k', v'⟩ := hd
      by_cases h : k' = k
      · simp [insertAssoc, lookupAssoc, h]
      · simp [insertAssoc, lookupAssoc, h, ih]

theorem collectExcept_ok_iff {ε α : Type} (l : List (Except ε α)) (l' : List α) :
    collectExcept l = .ok l' ↔ l = l'.map Except.ok := by
  induction l generalizing l' with
  | nil =>
      cases l' <;> simp [collectExcept]
  | cons hd tl ih =>
      cases hd with
      | error e => cases l' <;> simp [collectExcept]
      | ok a =>
          cases l' with
          | nil =>
              simp only [collectExcept, List.map_nil]
              constructor
              · intro h
                cases htl : collectExcept tl <;> rw [htl] at h <;>
                  simp [Except.map] at h
              · intro h
                simp at h
          | cons b l'' =>
              simp only [collectExcept, List.map_cons]
              constructor
              · intro h
                cases htl : collectExcept tl with
                | error e => rw [htl] at h; simp [Except.map] at h
                | ok vs =>
                    rw [htl] at h
                    simp [Except.map] at h
                    obtain ⟨hab, hvs⟩ := h
                    rw [hab, (ih vs).mp htl, hvs]
              · intro h
                injection h with h1 h2
                injection h1 with hab
                subst hab
                rw [(ih l'').mpr h2]
                simp [Except.map]

theorem collectExcept_map_ok_mem {ε α β : Type} {f : α → Except ε β}
    {l : List α} {l' : List β} (h : collectExcept (l.map f) = .ok l') :
    (∀ b ∈ l', ∃ a ∈ l, f a = .ok b) ∧ (∀ a ∈ l, ∃ b ∈ l', f a = .ok b) := by
  have hmap : l.map f = l'.map Except.ok := (collectExcept_ok_iff _ _).mp h
  constructor
  · intro b hb
    have : Except.ok (ε := ε) b ∈ l.map f := by
      rw [hmap]; exact List.mem_map_of_mem _ hb
    obtain ⟨a, ha, hfa⟩ := List.mem_map.mp this
    exact ⟨a, ha, hfa⟩
  · intro a ha
    have : f a ∈ l'.map Except.ok := by
      rw [← hmap]; exact List.mem_map_of_mem _ ha
    obtain ⟨b, hb, hfb⟩ := List.mem_map.mp this
    exact ⟨b, hb, hfb.symm⟩

theorem collectExcept_ok_exists {ε α β : Type} (f : α → Except ε β)
    (l : List α) (h : ∀ a ∈ l, ∃ b, f a = .ok b) :
    ∃ l', collectExcept (l.map f) = .ok l' := by
  induction l with
  | nil => exact ⟨[], rfl⟩
  | cons a t ih =>
      obtain ⟨b, hb⟩ := h a (by simp)
      obtain ⟨l', hl'⟩ := ih (fun x hx => h x (by simp [hx]))
      exact ⟨b :: l', by simp [collectExcept, hb, hl', Except.map]⟩

/-- In a list sorted in descending order (every earlier element is `≥`
every later one, expressed by `Pairwise (flip le)`), the first element
satisfying `p` is a `le`-upper bound of all elements satisfying `p`. -/
theorem find?_pairwise_max {β : Type} {le : β → β → Prop} [IsRefl β le]
    {p : β → Bool} :
    ∀ {l : List β} {x : β}, l.Pairwise (fun a b => le b a) →
      l.find? p = some x → p x = true ∧ ∀ y ∈ l, p y = true → le y x := by
  intro l
  induction l with
  | nil => intro x _ h; simp [List.find?] at h
  | cons a t ih =>
      intro x hpw hf
      have hpw' := List.pairwise_cons.mp hpw
      by_cases hpa : p a
      · have hx : x = a := by
          simp [List.find?, hpa] at hf
          exact hf.symm
        subst hx
        refine ⟨hpa, ?_⟩
        intro y hy _
        rcases List.mem_cons.mp hy with h | h
        · exact h ▸ refl_of le x
        · exact hpw'.1 y h
      · have hf' : t.find? p = some x := by
          simpa [List.find?, hpa] using hf
        obtain ⟨hpx, hmax⟩ := ih hpw'.2 hf'
        refine ⟨hpx, ?_⟩
        intro y hy hpy
        rcases List.mem_cons.mp hy with h | h
        · exact absurd (h ▸ hpy) (by simpa using hpa)
        · exact hmax y h hpy

/-- C10: for every `LockSource`, `source()` is the crates.io download URL
built from the crate name and record version exactly when the lock record
carries a source tag; with no source tag it is `"file://"` followed by
the process's current working directory, independent of which crate the
record describes. -/
theorem lock_source_locator (cwd : String) (s : Lib.LockSource) :
    (s.package.source.isSome = true →
      Lib.LockSource.source cwd s =
        "https://crates.io/api/v1/crates/" ++ s.crate_name ++ "/" ++
          s.package.version ++ "/download")
    ∧ (s.package.source = none →
      Lib.LockSource.source cwd s = "file://" ++ cwd)
    ∧ (∀ s₂ : Lib.LockSource, s.package.source = none →
      s₂.package.source = none →
      Lib.LockSource.source cwd s = Lib.LockSource.source cwd s₂) := by
  refine ⟨fun h => ?_, fun h => ?_, fun s₂ h h₂ => ?_⟩ <;>
    simp [Lib.LockSource.source, Lib.LockSource.versionFn, h]
  · simp [h₂]

/-- Witness for `lock_source_locator` at concrete lock records: a tagged
record yields the crates.io URL, untagged records yield the cwd locator
regardless of the crate they describe. -/
theorem lock_source_locator_witness :
    Lib.LockSource.source "/ws/app" c10Tagged =
      "https://crates.io/api/v1/crates/serde/1.0.104/download"
    ∧ Lib.LockSource.source "/ws/app" c10Untagged = "file:///ws/app"
    ∧ Lib.LockSource.source "/ws/app" c10Untagged =
      Lib.LockSource.source "/ws/app" c10Untagged' :=
  ⟨(lock_source_locator "/ws/app" c10Tagged).1 rfl,
   (lock_source_locator "/ws/app" c10Untagged).2.1 rfl,
   (lock_source_locator "/ws/app" c10Untagged).2.2 c10Untagged' rfl rfl⟩

/-- C9: the variant-level `package_name` is the kebab-cased crate name
joined to the version with `"-"` identically across the implemented
`CrateSource` variants (Registry, Lock, Simple, Path; `GitSource` is an
unimplemented placeholder), `CrateRef::definition_name` is `"rust-"`
followed by the kebab-cased crate name, and concretely
`package_name("Foo-Bar", "1.2.3") = "foo-bar-1.2.3"` and
`definition_name("Foo-Bar") = "rust-foo-bar"`. -/
theorem package_and_definition_names :
    (∀ (r : Lib.CrateRef) (n : String), r.crate_nameFn = .ok n →
      r.definition_name = .ok ("rust-" ++ toKebabCase n))
    ∧ (∀ s : Lib.RegistrySource,
      s.package_name = toKebabCase s.crate_name ++ "-" ++ s.version)
    ∧ (∀ s : Lib.LockSource,
      s.package_name = toKebabCase s.crate_name ++ "-" ++ s.versionFn)
    ∧ (∀ s : Lib.SimpleSource,
      s.package_name = toKebabCase s.crate_name ++ "-" ++ s.version)
    ∧ (∀ s : PathSnap.PathSource,
      s.package_name = toKebabCase s.crate_name ++ "-" ++ s.versionFn)
    ∧ Lib.RegistrySource.package_name ⟨⟨"Foo-Bar", "1.2.3", []⟩⟩ =
        "foo-bar-1.2.3"
    ∧ Lib.CrateRef.definition_name
        ⟨"Foo-Bar", .registry ⟨⟨"Foo-Bar", "1.2.3", []⟩⟩⟩ =
        .ok "rust-foo-bar" := by
  refine ⟨?_, fun s => rfl, fun s => rfl, fun s => rfl, fun s => rfl,
    by decide, by decide⟩
  intro r n h
  simp [Lib.CrateRef.definition_name, h, Except.map]

/-- Witness for `package_and_definition_names`: the definition name is
derived from the dispatched crate name (here the lock record's `serde`,
not the wrapper field). -/
theorem package_and_definition_names_witness :
    Lib.CrateRef.definition_name ⟨"Foo-Bar", .lock c10Tagged⟩ =
      .ok ("rust-" ++ toKebabCase "serde") :=
  package_and_definition_names.1 ⟨"Foo-Bar", .lock c10Tagged⟩ "serde" rfl

/-- C8: any error arising while resolving the dependencies of a crate at
a resolved version is returned as `DependencyProcessingFailed` carrying
that crate's name and version, with the original error preserved as its
cause. -/
theorem dependency_errors_wrapped {V : Type} [LinearOrder V] (env : Env V)
    (st : Main.Carguix) (crate_ : Crate) (version : Option String)
    (cv : IndexVersion) (e : Main.CarguixError)
    (hfind : crate_.versions.find?
      (fun x => x.version == version.getD crate_.latest_version.version) =
      some cv)
    (hdeps : collectExcept (cv.dependencies.map
      (Main.dependency_crate_ref env)) = .error e) :
    Main.crate_package env st crate_ version =
      (.error (.DependencyProcessingFailed e crate_.name
        (version.getD crate_.latest_version.version)), st)
    ∧ Main.CarguixError.cause
        (.DependencyProcessingFailed e crate_.name
          (version.getD crate_.latest_version.version)) =
      some (.carguix e) := by
  constructor
  · simp only [Main.crate_package, hfind, hdeps]
  · rfl

/-- Witness for `dependency_errors_wrapped`: crate `c@1.0.0` depends on a
crate absent from the index; the `CrateNotFound` failure comes back
wrapped with `c`'s name and version and as the wrapper's cause. -/
theorem dependency_errors_wrapped_witness :
    Main.crate_package c8Env ⟨[], [], []⟩ c8Crate (some "1.0.0") =
      (.error (.DependencyProcessingFailed (.CrateNotFound "missing")
        "c" "1.0.0"), ⟨[], [], []⟩)
    ∧ Main.CarguixError.cause
        (.DependencyProcessingFailed (.CrateNotFound "missing") "c"
          "1.0.0") =
      some (.carguix (.CrateNotFound "missing")) :=
  dependency_errors_wrapped c8Env ⟨[], [], []⟩ c8Crate (some "1.0.0")
    ⟨"c", "1.0.0", [⟨"missing", "^1"⟩]⟩ (.CrateNotFound "missing")
    (by decide) (by decide)

/-- C6: processing one lock-record dependency string dispatches on the
whitespace-token count.  Three tokens (name, version, source tag) yield a
`LockSource` child at that name and version against the same lock
manifest; two tokens resolve the name through the name-to-path table into
a `PathSource` child, a missing table entry being an explicit hard
failure (a panic, never a silent skip); any other token shape is a
`BadLockFileDependency` error. -/
theorem lock_dependency_token_shapes
    (mk : String → List (String × String) →
      Except PathSnap.Failure PathSnap.PathSource)
    (self : PathSnap.PathSource) (lock : PathSnap.LockSource)
    (s n v t : String) :
    (splitOnSpace s = [n, v, t] →
      (∀ e, PathSnap.LockSource.new_with_manifest n (some v) lock.manifest
          self.crate_paths = .error e →
        PathSnap.PathSource.processLockDependency mk self lock s =
          .error (.err e))
      ∧ (∀ child,
          PathSnap.LockSource.new_with_manifest n (some v) lock.manifest
            self.crate_paths = .ok child →
        PathSnap.PathSource.processLockDependency mk self lock s =
          .ok (.lock child)
        ∧ child.crate_name = n ∧ child.version = v
        ∧ child.manifest = lock.manifest))
    ∧ (splitOnSpace s = [n, v] →
      (lookupAssoc n self.crate_paths = none →
        PathSnap.PathSource.processLockDependency mk self lock s =
          .error (.panic ("dependency " ++ n ++ " of " ++
            self.crate_name ++ " path not found")))
      ∧ (∀ p, lookupAssoc n self.crate_paths = some p →
        (∀ e, mk p self.crate_paths = .error e →
          PathSnap.PathSource.processLockDependency mk self lock s =
            .error e)
        ∧ (∀ child, mk p self.crate_paths = .ok child →
          PathSnap.PathSource.processLockDependency mk self lock s =
            .ok (.path child))))
    ∧ ((splitOnSpace s).length ≠ 2 → (splitOnSpace s).length ≠ 3 →
      PathSnap.PathSource.processLockDependency mk self lock s =
        .error (.err (.BadLockFileDependency s))) := by
  refine ⟨fun hsp => ⟨fun e he => ?_, fun child hc => ?_⟩,
    fun hsp => ⟨fun hnone => ?_, fun p hp => ⟨fun e he => ?_,
      fun child hc => ?_⟩⟩, fun h2 h3 => ?_⟩
  · simp only [PathSnap.PathSource.processLockDependency, hsp, he]
  · refine ⟨by simp only [PathSnap.PathSource.processLockDependency,
      hsp, hc], ?_, ?_, ?_⟩ <;>
    · unfold PathSnap.LockSource.new_with_manifest at hc
      cases hfind : lock.manifest.package.find?
          (fun package => package.name == n &&
            ((some v).map (fun v' => package.version == v')).getD true) with
      | none => rw [hfind] at hc; exact absurd hc (by simp)
      | some package =>
          rw [hfind] at hc
          have hpred := List.find?_some hfind
          simp at hpred
          cases hc
          simp [hpred.2]
  · simp only [PathSnap.PathSource.processLockDependency, hsp, hnone]
  · simp only [PathSnap.PathSource.processLockDependency, hsp, hp, he]
  · simp only [PathSnap.PathSource.processLockDependency, hsp, hp, hc]
  · rcases hsp : splitOnSpace s with _ | ⟨a, _ | ⟨b, _ | ⟨c, _ | d⟩⟩⟩ <;>
      simp only [PathSnap.PathSource.processLockDependency, hsp] <;>
      simp_all

/-- Witness for `lock_dependency_token_shapes` at concrete dependency
strings of a concrete path source: a registry-tagged three-token string,
a two-token local-crate string and a malformed one-token string. -/
theorem lock_dependency_token_shapes_witness :
    PathSnap.PathSource.processLockDependency c6MkPathSource c6Self c6Lock
      "serde 1.0.104 (registry+https://github.com/rust-lang/crates.io-index)" =
      .ok (.lock ⟨"serde", "1.0.104",
        ⟨"serde", "1.0.104",
          some "registry+https://github.com/rust-lang/crates.io-index", []⟩,
        c6Manifest, c6Paths⟩)
    ∧ PathSnap.PathSource.processLockDependency c6MkPathSource c6Self
        c6Lock "local-crate 0.1.0" =
      .ok (.path ⟨"/ws/local-crate", ⟨"local-crate", "0.1.0"⟩, none,
        c6Paths⟩)
    ∧ PathSnap.PathSource.processLockDependency c6MkPathSource c6Self
        c6Lock "weird" =
      .error (.err (.BadLockFileDependency "weird")) :=
  ⟨(((lock_dependency_token_shapes c6MkPathSource c6Self c6Lock
      "serde 1.0.104 (registry+https://github.com/rust-lang/crates.io-index)"
      "serde" "1.0.104"
      "(registry+https://github.com/rust-lang/crates.io-index)").1
      (by decide)).2 _ (by decide)).1,
   ((((lock_dependency_token_shapes c6MkPathSource c6Self c6Lock
      "local-crate 0.1.0" "local-crate" "0.1.0" "").2.1
      (by decide)).2 "/ws/local-crate" (by decide)).2 _ rfl),
   ((lock_dependency_token_shapes c6MkPathSource c6Self c6Lock
      "weird" "" "" "").2.2 (by decide) (by decide))⟩

/-- C1: whenever registry resolution succeeds, the returned record's
version parses, satisfies the requirement, and is the greatest parsed
version among all published versions of the crate that satisfy it. -/
theorem registry_resolution_max {V : Type} [LinearOrder V] (env : Env V)
    (crate_name requirement : String) (r : IndexVersion)
    (h : Lib.highest_matching_crate_version env crate_name requirement =
      .ok r) :
    ∃ crate_, env.index crate_name = some crate_ ∧
      ∃ version_req, env.parseReq requirement = .ok version_req ∧
        ∃ pv, env.parseVersion r.version = .ok pv ∧
          version_req pv = true ∧
          ∀ cv ∈ crate_.versions, ∀ v,
            env.parseVersion cv.version = .ok v →
            version_req v = true → v ≤ pv := by
  unfold Lib.highest_matching_crate_version at h
  cases hidx : env.index crate_name with
  | none => rw [hidx] at h; exact absurd h (by simp)
  | some crate_ =>
    rw [hidx] at h
    dsimp only at h
    refine ⟨crate_, rfl, ?_⟩
    cases hcoll : collectExcept (crate_.versions.map
        (fun cv => (env.parseVersion cv.version).map (fun v => (cv, v)))) with
    | error e => rw [hcoll] at h; exact absurd h (by simp)
    | ok pairs =>
      rw [hcoll] at h
      dsimp only at h
      cases hreq : env.parseReq requirement with
      | error e => rw [hreq] at h; exact absurd h (by simp)
      | ok version_req =>
        rw [hreq] at h
        dsimp only at h
        refine ⟨version_req, rfl, ?_⟩
        cases hfind : (List.insertionSort
            (fun (a b : IndexVersion × V) => a.2 ≤ b.2)
            pairs).reverse.find? (fun p => version_req p.2) with
        | none => rw [hfind] at h; exact absurd h (by simp)
        | some x =>
          rw [hfind] at h
          dsimp only at h
          have hr : x.1 = r := by
            simpa using h
          haveI : IsTotal (IndexVersion × V)
              (fun a b => a.2 ≤ b.2) := ⟨fun a b => le_total a.2 b.2⟩
          haveI : IsTrans (IndexVersion × V)
              (fun a b => a.2 ≤ b.2) := ⟨fun _ _ _ hab hbc => le_trans hab hbc⟩
          haveI : IsRefl (IndexVersion × V)
              (fun a b => a.2 ≤ b.2) := ⟨fun a => le_refl a.2⟩
          have hsorted : (List.insertionSort
              (fun (a b : IndexVersion × V) => a.2 ≤ b.2) pairs).Pairwise
              (fun a b => a.2 ≤ b.2) :=
            List.sorted_insertionSort _ pairs
          have hrev : ((List.insertionSort
              (fun (a b : IndexVersion × V) => a.2 ≤ b.2)
              pairs).reverse).Pairwise (fun a b => b.2 ≤ a.2) :=
            List.pairwise_reverse.mpr hsorted
          obtain ⟨hpx, hmax⟩ := find?_pairwise_max hrev hfind
          have hmemx : x ∈ pairs := by
            have hx := List.mem_of_find?_eq_some hfind
            rw [List.mem_reverse] at hx
            exact (List.perm_insertionSort _ pairs).mem_iff.mp hx
          obtain ⟨hforward, hbackward⟩ := collectExcept_map_ok_mem hcoll
          obtain ⟨cv₀, hcv₀, hfcv₀⟩ := hforward x hmemx
          have hx₀ : env.parseVersion cv₀.version = .ok x.2 ∧ cv₀ = x.1 := by
            cases hp : env.parseVersion cv₀.version with
            | error e =>
                rw [hp] at hfcv₀
                exact absurd hfcv₀ (by simp [Except.map])
            | ok v =>
                rw [hp] at hfcv₀
                simp [Except.map] at hfcv₀
                obtain ⟨h1, h2⟩ := Prod.mk.injEq .. ▸ hfcv₀
                constructor
                · rw [h2]
                · exact h1
          refine ⟨x.2, by rw [← hr, ← hx₀.2]; exact hx₀.1, hpx, ?_⟩
          intro cv hcv v hv hvmatch
          have hfcv : (env.parseVersion cv.version).map
              (fun w => (cv, w)) = .ok (cv, v) := by
            rw [hv]; rfl
          have hmem : (cv, v) ∈ pairs := by
            obtain ⟨b, hb, hfb⟩ := hbackward cv hcv
            rw [hfcv] at hfb
            cases hfb
            exact hb
          have hmemrev : (cv, v) ∈ (List.insertionSort
              (fun (a b : IndexVersion × V) => a.2 ≤ b.2)
              pairs).reverse := by
            rw [List.mem_reverse]
            exact (List.perm_insertionSort _ pairs).mem_iff.mpr hmem
          exact hmax (cv, v) hmemrev hvmatch

/-- Witness for `registry_resolution_max`: with versions listed unsorted
as `0.1.0, 1.2.0, 1.0.0` and requirement `^1`, resolution returns the
`1.2.0` record — the greatest satisfying version, not the first-listed
(`1.0.0` when scanning the raw listing from the end) and not the lowest
compatible. -/
theorem registry_resolution_max_witness :
    Lib.highest_matching_crate_version c1Env "a" "^1" =
      .ok ⟨"a", "1.2.0", []⟩
    ∧ ∃ crate_, c1Env.index "a" = some crate_ ∧
      ∃ version_req, c1Env.parseReq "^1" = .ok version_req ∧
        ∃ pv, c1Env.parseVersion (IndexVersion.version ⟨"a", "1.2.0", []⟩) =
            .ok pv ∧
          version_req pv = true ∧
          ∀ cv ∈ crate_.versions, ∀ v,
            c1Env.parseVersion cv.version = .ok v →
            version_req v = true → v ≤ pv :=
  ⟨by decide,
   registry_resolution_max c1Env "a" "^1" ⟨"a", "1.2.0", []⟩ (by decide)⟩

/-- A parse failure of any version string in the candidate list makes
collection fail, in which case resolution aborts with
`VersionParsingError` naming the crate and requirement; when every
version string parses, resolution never fails with a version-parse
error.  (The spec's claim that unparsable versions are silently excluded
does not hold: `collect::<Result<Vec<_>, _>>` short-circuits on the
first parse failure.) -/
theorem version_parse_failure_aborts {V : Type} [LinearOrder V]
    (env : Env V) (name requirement : String) (crate_ : Crate)
    (hidx : env.index name = some crate_) :
    (∀ e, collectExcept (crate_.versions.map
        (fun cv => (env.parseVersion cv.version).map (fun v => (cv, v)))) =
        .error e →
      Lib.highest_matching_crate_version env name requirement =
        .error (.VersionParsingError e name requirement))
    ∧ ((∀ cv ∈ crate_.versions, ∃ v, env.parseVersion cv.version = .ok v) →
      ∀ e n' r', Lib.highest_matching_crate_version env name requirement ≠
        .error (.VersionParsingError e n' r')) := by
  constructor
  · intro e he
    unfold Lib.highest_matching_crate_version
    rw [hidx]
    dsimp only
    rw [he]
  · intro hall e n' r'
    have hex : ∀ cv ∈ crate_.versions,
        ∃ b, (env.parseVersion cv.version).map (fun v => (cv, v)) =
          .ok b := by
      intro cv hcv
      obtain ⟨v, hv⟩ := hall cv hcv
      exact ⟨(cv, v), by rw [hv]; rfl⟩
    obtain ⟨pairs, hpairs⟩ := collectExcept_ok_exists _ _ hex
    unfold Lib.highest_matching_crate_version
    rw [hidx]
    dsimp only
    rw [hpairs]
    dsimp only
    cases hreq : env.parseReq requirement with
    | error e' => simp
    | ok version_req =>
        cases hfind : (List.insertionSort
            (fun (a b : IndexVersion × V) => a.2 ≤ b.2)
            pairs).reverse.find? (fun p => version_req p.2) <;>
          (dsimp only; rw [hfind]; simp)

/-- Counterexample to C5 as stated: crate `a` publishes `1.0.0` (which
parses and satisfies `^1`) alongside the unparsable string
`"not-a-semver"`; resolution nevertheless fails with
`VersionParsingError` — the unparsable version is not silently excluded
even though a parseable satisfying version remains. -/
theorem version_parse_failure_counterexample :
    Lib.highest_matching_crate_version c5Env "a" "^1" =
      .error (.VersionParsingError ⟨"not-a-semver"⟩ "a" "^1")
    ∧ c5Env.parseVersion "1.0.0" = .ok 100
    ∧ caretOneMatches 100 = true
    ∧ c5Env.parseReq "^1" = .ok caretOneMatches :=
  ⟨by decide, by decide, by decide, rfl⟩

/-- Witness for `version_parse_failure_aborts`: the first conjunct at the
mixed-parseability crate, the second at a crate whose versions all
parse. -/
theorem version_parse_failure_aborts_witness :
    Lib.highest_matching_crate_version c5Env "a" "^1" =
      .error (.VersionParsingError ⟨"not-a-semver"⟩ "a" "^1")
    ∧ Lib.highest_matching_crate_version c1Env "a" "^1" ≠
      .error (.VersionParsingError ⟨"zzz"⟩ "a" "^1") :=
  ⟨(version_parse_failure_aborts c5Env "a" "^1"
      ⟨"a", [⟨"a", "1.0.0", []⟩, ⟨"a", "not-a-semver", []⟩]⟩
      (by decide)).1 ⟨"not-a-semver"⟩ (by decide),
   (version_parse_failure_aborts c1Env "a" "^1"
      ⟨"a", [⟨"a", "0.1.0", []⟩, ⟨"a", "1.2.0", []⟩, ⟨"a", "1.0.0", []⟩]⟩
      (by decide)).2
      (by intro cv hcv; fin_cases hcv <;> exact ⟨_, rfl⟩)
      ⟨"zzz"⟩ "a" "^1"⟩

theorem hash_hit (env : Guix.HashEnv) (u : String) (w : Guix.World)
    (d : String) (h : lookupAssoc u w.hashdb = some d) :
    Guix.hash env u w = (.ok d, w) := by
  unfold Guix.hash
  rw [h]

theorem resolveArtifactPath_state (env : Guix.HashEnv) (u : String)
    (url : Guix.Url) (w : Guix.World) :
    (Guix.resolveArtifactPath env u url w).2.hashdb = w.hashdb ∧
    (Guix.resolveArtifactPath env u url w).2.hashes = w.hashes ∧
    (Guix.resolveArtifactPath env u url w).2.downloads ≤ w.downloads + 1 := by
  unfold Guix.resolveArtifactPath
  refine ⟨?_, ?_, ?_⟩ <;>
    (repeat' (first | split | (dsimp only; split))) <;>
    simp [Nat.le_succ]

theorem guix_hash_state (env : Guix.HashEnv) (p : String)
    (w : Guix.World) :
    (Guix.guix_hash env p w).2 = { w with hashes := w.hashes + 1 } :=
  rfl

theorem hash_ok_state {env : Guix.HashEnv} {u : String} {w : Guix.World}
    {d : String} {w' : Guix.World}
    (h : Guix.hash env u w = (.ok d, w')) :
    lookupAssoc u w'.hashdb = some d ∧
    (w'.hashdb = w.hashdb ∨ w'.hashdb = insertAssoc u d w.hashdb) ∧
    (lookupAssoc u w.hashdb = some d ∨ env.flushOk = .ok ()) ∧
    w'.hashes ≤ w.hashes + 1 ∧ w'.downloads ≤ w.downloads + 1 := by
  unfold Guix.hash at h
  split at h
  case h_1 stored heq =>
    obtain ⟨h1, h2⟩ := Prod.mk.injEq .. ▸ h
    cases h1
    cases h2
    exact ⟨heq, Or.inl rfl, Or.inl heq, Nat.le_succ _, Nat.le_succ _⟩
  case h_2 heq =>
    split at h
    case h_1 => exact absurd h (by simp)
    case h_2 url hurl =>
      split at h
      case h_1 => exact absurd h (by simp)
      case h_2 path w₂ hres =>
        obtain ⟨hdb₂, hh₂, hdl₂⟩ := resolveArtifactPath_state env u url w
        rw [hres] at hdb₂ hh₂ hdl₂
        split at h
        case h_1 => exact absurd h (by simp)
        case h_2 hsh w₃ hgh =>
          have hw₃ : w₃ = { w₂ with hashes := w₂.hashes + 1 } := by
            have := congrArg Prod.snd hgh
            rw [guix_hash_state] at this
            exact this.symm
          split at h
          case h_1 => exact absurd h (by simp)
          case h_2 a hf =>
            obtain ⟨h1, h2⟩ := Prod.mk.injEq .. ▸ h
            cases h1
            cases h2
            dsimp only at hdb₂ hh₂ hdl₂
            refine ⟨?_, ?_, ?_, ?_, ?_⟩
            · simp [lookupAssoc_insertAssoc_self]
            · right; simp [hw₃, hdb₂]
            · right; rw [hf]
            · simp [hw₃, hh₂]
            · simpa [hw₃] using hdl₂

theorem hash_error_state {env : Guix.HashEnv} {u : String}
    {w : Guix.World} {e : Errors.CarguixError} {w' : Guix.World}
    (h : Guix.hash env u w = (.error e, w'))
    (hflush : ∀ b, e ≠ .HashDatabaseFlushFailed b) :
    w'.hashdb = w.hashdb := by
  unfold Guix.hash at h
  split at h
  case h_1 stored heq => exact absurd h (by simp)
  case h_2 heq =>
    split at h
    case h_1 e' hurl =>
      obtain ⟨h1, h2⟩ := Prod.mk.injEq .. ▸ h
      rw [← h2]
    case h_2 url hurl =>
      split at h
      case h_1 e' w₂ hres =>
        obtain ⟨hdb₂, hh₂, hdl₂⟩ := resolveArtifactPath_state env u url w
        rw [hres] at hdb₂
        obtain ⟨h1, h2⟩ := Prod.mk.injEq .. ▸ h
        rw [← h2]
        exact hdb₂
      case h_2 path w₂ hres =>
        obtain ⟨hdb₂, hh₂, hdl₂⟩ := resolveArtifactPath_state env u url w
        rw [hres] at hdb₂
        split at h
        case h_1 e' w₃ hgh =>
          have hw₃ : w₃ = { w₂ with hashes := w₂.hashes + 1 } := by
            have := congrArg Prod.snd hgh
            rw [guix_hash_state] at this
            exact this.symm
          obtain ⟨h1, h2⟩ := Prod.mk.injEq .. ▸ h
          rw [← h2, hw₃]
          exact hdb₂
        case h_2 hsh w₃ hgh =>
          split at h
          case h_1 b hf =>
            obtain ⟨h1, h2⟩ := Prod.mk.injEq .. ▸ h
            injection h1 with h1'
            exact absurd h1'.symm (hflush b)
          case h_2 => exact absurd h (by simp)

/-- C3: a cache hit returns the stored digest immediately with no I/O
and no state change; and calling the content-hash operation twice with
the same locator returns the identical digest both times, the second
call being a pure hit, so the two calls together perform at most one
external hash computation and at most one download. -/
theorem hash_cache_at_most_once (env : Guix.HashEnv) (url_str : String)
    (w : Guix.World) :
    (∀ d, lookupAssoc url_str w.hashdb = some d →
      Guix.hash env url_str w = (.ok d, w))
    ∧ (∀ d₁ w₁, Guix.hash env url_str w = (.ok d₁, w₁) →
      Guix.hash env url_str w₁ = (.ok d₁, w₁)
      ∧ w₁.hashes ≤ w.hashes + 1 ∧ w₁.downloads ≤ w.downloads + 1) := by
  refine ⟨fun d hd => hash_hit env url_str w d hd, fun d₁ w₁ h₁ => ?_⟩
  obtain ⟨hlk, _, _, hh, hdl⟩ := hash_ok_state h₁
  exact ⟨hash_hit env url_str w₁ d₁ hlk, hh, hdl⟩

/-- Witness for `hash_cache_at_most_once`: the first call on an empty
cache computes (one hash invocation, zero downloads for a `file://`
locator) and the second call is a hit returning the identical digest
with no further effects. -/
theorem hash_cache_at_most_once_witness :
    Guix.hash hashEnvW "file:///src/foo" emptyWorld =
      (.ok "0abc123", afterFirstWorld)
    ∧ (Guix.hash hashEnvW "file:///src/foo" afterFirstWorld =
        (.ok "0abc123", afterFirstWorld)
      ∧ afterFirstWorld.hashes ≤ emptyWorld.hashes + 1
      ∧ afterFirstWorld.downloads ≤ emptyWorld.downloads + 1) :=
  ⟨by decide,
   (hash_cache_at_most_once hashEnvW "file:///src/foo" emptyWorld).2
     "0abc123" afterFirstWorld (by decide)⟩

/-- C7: on a miss, the `(locator, digest)` entry is inserted only after
the hash computation succeeds and before the digest is returned; any
failure other than the final flush (URL parsing, download, file
creation, copy, or the external hash invocation) returns its error with
the cache store unchanged. -/
theorem hash_cache_write_after_compute (env : Guix.HashEnv)
    (url_str : String) (w : Guix.World) :
    (∀ e w', Guix.hash env url_str w = (.error e, w') →
      (∀ b, e ≠ .HashDatabaseFlushFailed b) → w'.hashdb = w.hashdb)
    ∧ (∀ d w', Guix.hash env url_str w = (.ok d, w') →
      lookupAssoc url_str w'.hashdb = some d
      ∧ (w'.hashdb = w.hashdb ∨
         w'.hashdb = insertAssoc url_str d w.hashdb)
      ∧ (lookupAssoc url_str w.hashdb = some d ∨
         env.flushOk = .ok ())) := by
  refine ⟨fun e w' h hf => hash_error_state h hf, fun d w' h => ?_⟩
  obtain ⟨hlk, hins, hfl, _, _⟩ := hash_ok_state h
  exact ⟨hlk, hins, hfl⟩

/-- Witness for `hash_cache_write_after_compute`: a failing `guix hash`
invocation leaves the empty cache empty, and a successful miss inserts
exactly the new entry. -/
theorem hash_cache_write_after_compute_witness :
    Guix.hash hashEnvErr "file:///src/foo" emptyWorld =
      (.error (.GuixHashError ⟨"guix hash failed"⟩ "file:///src/foo"),
        ⟨[], 0, 1, []⟩)
    ∧ (⟨[], 0, 1, []⟩ : Guix.World).hashdb = emptyWorld.hashdb
    ∧ lookupAssoc "file:///src/foo" afterFirstWorld.hashdb =
        some "0abc123" :=
  ⟨by decide,
   (hash_cache_write_after_compute hashEnvErr "file:///src/foo"
     emptyWorld).1 (.GuixHashError ⟨"guix hash failed"⟩ "file:///src/foo")
     ⟨[], 0, 1, []⟩ (by decide) (by simp),
   ((hash_cache_write_after_compute hashEnvW "file:///src/foo"
     emptyWorld).2 "0abc123" afterFirstWorld (by decide)).1⟩

/-- C4 (amended): an initialization failure (scratch directory, hash
store, index fetch) aborts `main` with that error and a non-zero exit;
but a per-crate failure inside the drain loop never aborts the run —
every successful definition is still printed (partial output), every
error is logged together with its walked cause chain, and `main` returns
success. -/
theorem main_continues_after_crate_failure {V : Type} [LinearOrder V]
    (env : Env V) (args : Main.Cli) (fuel : Nat) :
    (∀ e, Main.Carguix.new env args.crate_name args.version = .error e →
      Main.mainRun env args fuel = .error e)
    ∧ (∀ c, Main.Carguix.new env args.crate_name args.version = .ok c →
      args.update = false →
      Main.mainRun env args fuel =
        .ok { printed := (Main.Carguix.run env fuel c).filterMap
                (fun r => r.toOption),
              logged := ((Main.Carguix.run env fuel c).filterMap
                Main.errOf).flatMap Main.print_error }) := by
  constructor
  · intro e he
    unfold Main.mainRun
    rw [he]
  · intro c hc hupd
    unfold Main.mainRun
    rw [hc, hupd]
    rfl

/-- Witness for `main_continues_after_crate_failure`: under `c4Env` the
walker is constructed successfully and the run output is exactly the
partition of the drained results into printed definitions and logged
errors. -/
theorem main_continues_after_crate_failure_witness :
    Main.mainRun c4Env ⟨"a", false, some "1.0.0"⟩ 5 =
      .ok { printed := (Main.Carguix.run c4Env 5
              ⟨[("a", some "1.0.0")], [], [(("a", "1.0.0"), "0ha")]⟩).filterMap
              (fun r => r.toOption),
            logged := ((Main.Carguix.run c4Env 5
              ⟨[("a", some "1.0.0")], [], [(("a", "1.0.0"), "0ha")]⟩).filterMap
              Main.errOf).flatMap Main.print_error } :=
  (main_continues_after_crate_failure c4Env ⟨"a", false, some "1.0.0"⟩
    5).2 ⟨[("a", some "1.0.0")], [], [(("a", "1.0.0"), "0ha")]⟩
    (by decide) rfl

/-- Counterexample to C4 as stated: a run in which crate `a` is packaged
and printed while packaging its dependency `b` fails at download time.
The failure does not abort the run: `main` still returns success (exit
zero) with the partial output printed and the error merely logged, so
the graph build neither returns "the complete mapping or the first
error" nor exits non-zero on failure. -/
theorem main_continues_after_crate_failure_counterexample :
    Main.mainRun c4Env ⟨"a", false, some "1.0.0"⟩ 5 =
      .ok { printed := [⟨⟨"a", "1.0.0"⟩, "0ha", [⟨"b", "1.0.0"⟩]⟩],
            logged := [.carguix (.CratePackagingFailed "b"
              (some "1.0.0"))] } := by
  decide

theorem mem_insertKey_self (k : String × Option String)
    (l : List (String × Option String)) : k ∈ Main.insertKey k l := by
  unfold Main.insertKey
  split
  · assumption
  · exact List.mem_cons_self _ _

theorem mem_insertKey_of_mem (k : String × Option String)
    {a : String × Option String} {l : List (String × Option String)}
    (h : a ∈ l) : a ∈ Main.insertKey k l := by
  unfold Main.insertKey
  split
  · exact h
  · exact List.mem_cons_of_mem _ h

theorem get_crate_hash_fields {V : Type} (env : Env V)
    (st : Main.Carguix) (n v : String) :
    (Main.get_crate_hash env st n v).2.crates = st.crates ∧
    (Main.get_crate_hash env st n v).2.already_added_crates =
      st.already_added_crates := by
  unfold Main.get_crate_hash
  refine ⟨?_, ?_⟩ <;>
    (repeat' (first | split | (dsimp only; split))) <;> simp

theorem crate_package_fields {V : Type} [LinearOrder V] (env : Env V)
    (st : Main.Carguix) (c : Crate) (vOpt : Option String) :
    (Main.crate_package env st c vOpt).2.crates = st.crates ∧
    (Main.crate_package env st c vOpt).2.already_added_crates =
      st.already_added_crates := by
  unfold Main.crate_package
  refine ⟨?_, ?_⟩ <;>
    (repeat' (first | split | (dsimp only; split)))
  all_goals try rfl
  all_goals
    (rename_i heq
     have h2 := congrArg Prod.snd heq
     dsimp only at h2
     rw [← h2]
     first
       | exact (get_crate_hash_fields env st c.name _).1
       | exact (get_crate_hash_fields env st c.name _).2)

theorem crate_package_ok {V : Type} [LinearOrder V] {env : Env V}
    {st : Main.Carguix} {c : Crate} {vOpt : Option String}
    {pkg : Main.CratePackage} {st' : Main.Carguix}
    (h : Main.crate_package env st c vOpt = (.ok pkg, st')) :
    pkg.crate_ref.name = c.name ∧
    pkg.crate_ref.version = vOpt.getD c.latest_version.version := by
  unfold Main.crate_package at h
  repeat' (first | split at h | (dsimp only at h; split at h))
  all_goals simp at h
  obtain ⟨h1, h2⟩ := h
  rw [← h1]
  exact ⟨rfl, rfl⟩

theorem process_crate_ok {V : Type} [LinearOrder V] {env : Env V}
    {st : Main.Carguix} {n : String} {vOpt : Option String}
    {p : Main.CratePackage} {st' : Main.Carguix}
    (hwf : ∀ nm c, env.index nm = some c → c.name = nm)
    (h : Main.process_crate env st n vOpt = (.ok p, st')) :
    p.crate_ref.name = n ∧
    (∀ v, vOpt = some v → p.crate_ref.version = v) ∧
    st'.already_added_crates =
      Main.insertKey (n, vOpt) st.already_added_crates ∧
    (∀ k ∈ st'.crates, k ∈ st.crates ∨ k.2.isSome = true) := by
  unfold Main.process_crate at h
  cases hidx : env.index n with
  | none => rw [hidx] at h; exact absurd h (by simp)
  | some cr =>
    rw [hidx] at h
    dsimp only at h
    cases hcp : Main.crate_package env st cr vOpt with
    | mk res st'' =>
      rw [hcp] at h
      cases res with
      | error e => exact absurd h (by simp)
      | ok pkg =>
        dsimp only at h
        obtain ⟨h1, h2⟩ := Prod.mk.injEq .. ▸ h
        injection h1 with h1'
        obtain ⟨hname, hver⟩ := crate_package_ok hcp
        obtain ⟨hcrates, halready⟩ := crate_package_fields env st cr vOpt
        rw [hcp] at hcrates halready
        dsimp only at hcrates halready
        subst h1'
        refine ⟨by rw [hname]; exact hwf n cr hidx, ?_, ?_, ?_⟩
        · intro v hv
          rw [hver, hv]
          rfl
        · rw [← h2]
          dsimp only
          rw [halready]
        · intro k hk
          rw [← h2] at hk
          dsimp only at hk
          rcases List.mem_append.mp hk with hmem | hmem
          · exact Or.inl (hcrates ▸ hmem)
          · right
            obtain ⟨d, _, hd⟩ := List.mem_map.mp hmem
            rw [← hd]
            rfl

theorem process_crate_err {V : Type} [LinearOrder V] {env : Env V}
    {st : Main.Carguix} {n : String} {vOpt : Option String}
    {e : Main.CarguixError} {st' : Main.Carguix}
    (h : Main.process_crate env st n vOpt = (.error e, st')) :
    st'.already_added_crates = st.already_added_crates ∧
    st'.crates = st.crates := by
  unfold Main.process_crate at h
  cases hidx : env.index n with
  | none =>
    rw [hidx] at h
    obtain ⟨h1, h2⟩ := Prod.mk.injEq .. ▸ h
    rw [← h2]
    exact ⟨rfl, rfl⟩
  | some cr =>
    rw [hidx] at h
    dsimp only at h
    cases hcp : Main.crate_package env st cr vOpt with
    | mk res st'' =>
      rw [hcp] at h
      cases res with
      | ok pkg => exact absurd h (by simp)
      | error e' =>
        dsimp only at h
        obtain ⟨h1, h2⟩ := Prod.mk.injEq .. ▸ h
        obtain ⟨hcrates, halready⟩ := crate_package_fields env st cr vOpt
        rw [hcp] at hcrates halready
        dsimp only at hcrates halready
        rw [← h2]
        exact ⟨halready, hcrates⟩

theorem nextAux_spec {V : Type} [LinearOrder V] (env : Env V)
    (already : List (String × Option String))
    (hashdb : List ((String × String) × String)) :
    ∀ (q : List (String × Option String))
      (r : Except Main.CarguixError Main.CratePackage)
      (st' : Main.Carguix),
      Main.nextAux env already hashdb q = some (r, st') →
      ∃ k rest, k ∈ q ∧ k ∉ already ∧ (∀ x ∈ rest, x ∈ q) ∧
        (r, st') = Main.process_crate env ⟨rest, already, hashdb⟩ k.1 k.2 := by
  intro q
  induction q with
  | nil => intro r st' h; simp [Main.nextAux] at h
  | cons k t ih =>
      intro r st' h
      by_cases hk : k ∈ already
      · rw [Main.nextAux, if_pos hk] at h
        obtain ⟨k', rest, hk'q, hk'not, hrest, heq⟩ := ih r st' h
        exact ⟨k', rest, List.mem_cons_of_mem _ hk'q, hk'not,
          fun x hx => List.mem_cons_of_mem _ (hrest x hx), heq⟩
      · rw [Main.nextAux, if_neg hk] at h
        injection h with h'
        exact ⟨k, t, List.mem_cons_self _ _, hk,
          fun x hx => List.mem_cons_of_mem _ hx, h'.symm⟩

theorem run_dedup {V : Type} [LinearOrder V] (env : Env V)
    (hwf : ∀ nm c, env.index nm = some c → c.name = nm) :
    ∀ (fuel : Nat) (st : Main.Carguix),
      (∀ k ∈ st.crates, k.2.isSome = true) →
      (Main.Carguix.runPackages env fuel st).Pairwise
        (fun p q => p.identity ≠ q.identity) ∧
      ∀ p ∈ Main.Carguix.runPackages env fuel st,
        (p.crate_ref.name, some p.crate_ref.version) ∉
          st.already_added_crates := by
  intro fuel
  induction fuel with
  | zero =>
      intro st _
      simp [Main.Carguix.runPackages, Main.Carguix.run]
  | succ fuel ih =>
      intro st hq
      cases hnext : st.next env with
      | none =>
          simp [Main.Carguix.runPackages, Main.Carguix.run, hnext]
      | some out =>
        obtain ⟨r, st'⟩ := out
        obtain ⟨k, rest, hkq, hknot, hrest, heq⟩ :=
          nextAux_spec env st.already_added_crates st.hashdb st.crates
            r st' hnext
        cases r with
        | error e =>
          have hrun : Main.Carguix.runPackages env (fuel + 1) st =
              Main.Carguix.runPackages env fuel st' := by
            simp [Main.Carguix.runPackages, Main.Carguix.run, hnext,
              Except.toOption]
          obtain ⟨halr, hcr⟩ := process_crate_err heq.symm
          have hq' : ∀ x ∈ st'.crates, x.2.isSome = true := by
            intro x hx
            rw [hcr] at hx
            exact hq x (hrest x hx)
          obtain ⟨hp, hm⟩ := ih st' hq'
          rw [hrun]
          refine ⟨hp, fun p hp' => ?_⟩
          have := hm p hp'
          rw [halr] at this
          exact this
        | ok p =>
          have hrun : Main.Carguix.runPackages env (fuel + 1) st =
              p :: Main.Carguix.runPackages env fuel st' := by
            simp [Main.Carguix.runPackages, Main.Carguix.run, hnext,
              Except.toOption]
          obtain ⟨hname, hver, halr, hcr⟩ := process_crate_ok hwf heq.symm
          obtain ⟨v, hv⟩ := Option.isSome_iff_exists.mp (hq k hkq)
          have hkey : (p.crate_ref.name, some p.crate_ref.version) = k := by
            rw [hname, hver v hv]
            rw [← hv]
          have hq' : ∀ x ∈ st'.crates, x.2.isSome = true := by
            intro x hx
            rcases hcr x hx with hmem | hsome
            · exact hq x (hrest x hmem)
            · exact hsome
          obtain ⟨hp', hm'⟩ := ih st' hq'
          rw [hrun]
          constructor
          · refine List.pairwise_cons.mpr ⟨?_, hp'⟩
            intro q hqt hid
            have hnot := hm' q hqt
            rw [halr] at hnot
            apply hnot
            have hkeyq : (q.crate_ref.name, some q.crate_ref.version) =
                k := by
              have hq1 : q.crate_ref.name = p.crate_ref.name :=
                (congrArg Prod.fst hid).symm
              have hq2 : q.crate_ref.version = p.crate_ref.version :=
                (congrArg Prod.snd hid).symm
              rw [hq1, hq2, hkey]
            rw [hkeyq]
            exact mem_insertKey_self _ _
          · intro x hx
            rcases List.mem_cons.mp hx with hxp | hxt
            · rw [hxp, hkey]
              exact hknot
            · have := hm' x hxt
              rw [halr] at this
              exact fun hmem => this (mem_insertKey_of_mem _ hmem)

theorem carguix_new_shape {V : Type} {env : Env V} {n : String}
    {vOpt : Option String} {c : Main.Carguix}
    (h : Main.Carguix.new env n vOpt = .ok c) :
    c.crates = [(n, vOpt)] ∧ c.already_added_crates = [] := by
  unfold Main.Carguix.new at h
  repeat' (first | split at h | (dsimp only at h; split at h))
  all_goals simp at h
  all_goals (rw [← h]; exact ⟨rfl, rfl⟩)

/-- C2 (amended): over a name-coherent index, a run whose root version
is explicitly pinned never emits two `CratePackage` definitions with the
same `(name, version)` identity — diamond dependencies collapse — and a
queue key already recorded in the dedup set is discarded without
processing.  (With an unpinned root, the root's `(name, None)` dedup key
aliases its resolved `(name, Some version)` key, so a dependency chain
reaching back to the root can emit a duplicate; see the
counterexample.) -/
theorem walk_dedup_with_pinned_root {V : Type} [LinearOrder V]
    (env : Env V) (hwf : ∀ nm c, env.index nm = some c → c.name = nm)
    (root version : String) (c : Main.Carguix) (fuel : Nat)
    (hnew : Main.Carguix.new env root (some version) = .ok c) :
    (Main.Carguix.runPackages env fuel c).Pairwise
      (fun p q => p.identity ≠ q.identity)
    ∧ (∀ (st : Main.Carguix) (k : String × Option String),
      k ∈ st.already_added_crates →
      Main.nextAux env st.already_added_crates st.hashdb (k :: st.crates) =
        Main.nextAux env st.already_added_crates st.hashdb st.crates) := by
  constructor
  · obtain ⟨hcrates, halready⟩ := carguix_new_shape hnew
    have hq : ∀ k ∈ c.crates, k.2.isSome = true := by
      rw [hcrates]
      intro k hk
      rcases List.mem_singleton.mp hk with rfl
      rfl
    exact (run_dedup env hwf fuel c hq).1
  · intro st k hk
    rw [Main.nextAux, if_pos hk]

/-- Witness for `walk_dedup_with_pinned_root`: a diamond — the pinned
root `a` depends on `b` and `c`, each depending on `d` — yields pairwise
distinct package identities. -/
theorem walk_dedup_with_pinned_root_witness :
    Main.Carguix.new c2wEnv "a" (some "1.0.0") = .ok c2wState
    ∧ ((Main.Carguix.runPackages c2wEnv 9 c2wState).Pairwise
        (fun p q => p.identity ≠ q.identity)
      ∧ (∀ (st : Main.Carguix) (k : String × Option String),
        k ∈ st.already_added_crates →
        Main.nextAux c2wEnv st.already_added_crates st.hashdb
          (k :: st.crates) =
          Main.nextAux c2wEnv st.already_added_crates st.hashdb
            st.crates)) :=
  ⟨by decide,
   walk_dedup_with_pinned_root c2wEnv
     (by
       intro nm c h
       unfold c2wEnv baseEnv at h
       dsimp only at h
       unfold c2wIndex at h
       repeat' split at h
       all_goals first
         | (cases h; rfl)
         | injection h)
     "a" "1.0.0" c2wState 9 (by decide)⟩

/-- Counterexample to C2 as stated: with the root `a` queued without a
pinned version (the CLI default) and a dependency chain `a → b → a`
leading back to the root, the run emits the definition for
`(a, 1.0.0)` twice: the root is processed under the dedup key
`(a, None)` while the dependency re-reaches it under `(a, Some 1.0.0)`,
which the dedup set does not recognise as the same identity. -/
theorem walk_dedup_counterexample :
    Main.Carguix.new c2cEnv "a" none = .ok c2cState
    ∧ (Main.Carguix.runPackages c2cEnv 5 c2cState).map
        Main.CratePackage.identity =
      [("a", "1.0.0"), ("b", "1.0.0"), ("a", "1.0.0")]
    ∧ ¬ (Main.Carguix.runPackages c2cEnv 5 c2cState).Pairwise
        (fun p q => p.identity ≠ q.identity) := by
  refine ⟨by decide, by decide, by decide⟩
